import Mathlib

/-!
Verification of the locus-level genotype classification and filtering engine of
the `str-analysis` repository.

The definitions below are shallow embeddings of the Python code in
`str_analysis/check_combined_results_tsv_for_genome_wide_repeats.py` and
`str_analysis/check_combined_results_tsv_for_pathogenic_repeats.py`:

* `requiredMargin`, `stepAcc`, `scanRows`, `separationDecision` embed the
  affected-separation scan of `print_results_for_locus` in the genome-wide
  script (the counter/tracker loop, the hard-coded margin step table, and the
  acceptance decision, including the Python truthiness tests on the trackers).
* `scanUnaffectedIdx` embeds the simpler unaffected-counting loop of
  `print_results_for_locus` in the pathogenic-repeats script.
* `admitBoth` / `admitEither` and the `admitted*` filters embed the
  threshold-admission predicates (`>= threshold` comparisons combined with
  `&` for AR / diploid-XR strata and `|` otherwise).
* `rowBefore` / `sortByRank` embed the `sort_values(..., ascending=False)`
  ranking on (Num Repeats: Allele 2, Num Repeats: Allele 1, affected status).
* `processRecord` / `setEntry` / `buildLookup` embed
  `compute_threshold_lookup_by_motif`; the canonical-motif computation is an
  external collaborator and is passed in as an abstract function `canon`.

Numeric columns are modelled as `Int` (Python ints are unbounded), missing
values as `Option`, and Python truthiness of the integer trackers as
`pyTruthy`.
-/

/-- Affected status after normalization in `load_results_table`: the loader
raises on any value outside {"Affected", "Not Affected", "Unknown"}, so the
vocabulary is closed. -/
inductive AffStatus where
  | affected
  | notAffected
  | unknown
deriving DecidableEq, Repr

/-- One row of a locus table as seen by the classification logic: its affected
status, the configured metric columns ("Num Repeats" or "CI end") for Allele 1
and Allele 2, and the sex/zygosity fields used by the XR split
(`is_male` and whether the `Genotype` string contains "/"). -/
structure GRow where
  status : AffStatus
  a1 : Int
  a2 : Int
  isMale : Bool
  hasSlash : Bool
deriving DecidableEq, Repr

/-- The mutable loop state of the affected-separation scan in the genome-wide
script: `ingored_unaffected_counter`, `affected_counter`,
`first_non_ignored_unaffected_allele_size`, `first_affected_allele_size`,
`last_affected_allele_size`, and the row index `idx`. -/
structure ScanAcc where
  ignoredUnaffected : Nat
  affectedCount : Nat
  firstUnaffected : Option Int
  firstAffected : Option Int
  lastAffected : Option Int
  idx : Nat
deriving DecidableEq, Repr

/-- Initial scan state (all counters 0, all trackers `None`). -/
def initAcc : ScanAcc := ⟨0, 0, none, none, none, 0⟩

/-- Python truthiness of an optional integer variable: `None` and `0` are
falsy, every other value is truthy. -/
def pyTruthy : Option Int → Bool
  | none => false
  | some v => v != 0

/-- One iteration of the scan loop body for a single row, without the
`break` logic: `idx` always increments; a "Not Affected" row increments the
unaffected counter and overwrites `first_non_ignored_unaffected_allele_size`
with its Allele 2 metric; an "Affected" row increments the affected counter,
sets `first_affected_allele_size` when that tracker is still falsy, and
overwrites `last_affected_allele_size`; an "Unknown" row does nothing else. -/
def stepAcc (acc : ScanAcc) (r : GRow) : ScanAcc :=
  let acc1 := { acc with idx := acc.idx + 1 }
  match r.status with
  | AffStatus.notAffected =>
      { acc1 with ignoredUnaffected := acc1.ignoredUnaffected + 1,
                  firstUnaffected := some r.a2 }
  | AffStatus.affected =>
      { acc1 with affectedCount := acc1.affectedCount + 1,
                  firstAffected := if pyTruthy acc1.firstAffected then acc1.firstAffected
                                   else some r.a2,
                  lastAffected := some r.a2 }
  | AffStatus.unknown => acc1

/-- The scan loop of the genome-wide script (`for row in df_to_process
.itertuples()`): rows are consumed in order, and after a "Not Affected" row
pushes the unaffected counter strictly above `maxN` (`ingored_unaffected_counter
> args.max_n_unaffected`) the loop breaks. -/
def scanRows (maxN : Nat) : List GRow → ScanAcc → ScanAcc
  | [], acc => acc
  | r :: rest, acc =>
      let acc2 := stepAcc acc r
      match r.status with
      | AffStatus.notAffected =>
          if maxN < acc2.ignoredUnaffected then acc2 else scanRows maxN rest acc2
      | _ => scanRows maxN rest acc2

/-- The same loop with the `break` removed: a plain left fold of `stepAcc`. -/
def scanAll (l : List GRow) (acc : ScanAcc) : ScanAcc := l.foldl stepAcc acc

/-- The prefix of rows actually consumed by `scanRows` when the running
unaffected count is `cnt`: the row that triggers the break is itself consumed,
everything after it is not. -/
def consumedRows (maxN : Nat) : List GRow → Nat → List GRow
  | [], _ => []
  | r :: rest, cnt =>
      match r.status with
      | AffStatus.notAffected =>
          if maxN < cnt + 1 then [r] else r :: consumedRows maxN rest (cnt + 1)
      | _ => r :: consumedRows maxN rest cnt

/-- The hard-coded step table computing
`min_separation_between_affected_and_unaffected` from
`last_affected_allele_size` in the genome-wide script. -/
def requiredMargin (lastAffectedSize : Int) : Int :=
  if 300 < lastAffectedSize then 100
  else if 200 < lastAffectedSize then 50
  else if 120 < lastAffectedSize then 20
  else if 75 < lastAffectedSize then 10
  else if 50 < lastAffectedSize then 5
  else 2

/-- The per-stratum decision of the genome-wide affected-separation scan:
`none` when the stratum contributes no rows (no affected row seen, or the
separation test fails), otherwise `some (idx + 3)`, the number of rows kept by
`df_to_process.iloc[:idx + 3]`.  The separation test is the literal Python
condition `if first_non_ignored_unaffected_allele_size and
last_affected_allele_size < first_non_ignored_unaffected_allele_size +
min_separation_between_affected_and_unaffected`. -/
def separationDecision (maxN : Nat) (rows : List GRow) : Option Nat :=
  let acc := scanRows maxN rows initAcc
  if acc.affectedCount = 0 then none
  else
    let lastA := acc.lastAffected.getD 0
    if pyTruthy acc.firstUnaffected ∧ lastA < acc.firstUnaffected.getD 0 + requiredMargin lastA
    then none
    else some (acc.idx + 3)

/-- The rows the genome-wide scan reports for a stratum:
`df_to_process.iloc[:idx + 3]` on acceptance, nothing on rejection. -/
def keptRows (maxN : Nat) (rows : List GRow) : Option (List GRow) :=
  (separationDecision maxN rows).map (fun n => rows.take n)

/-- The unaffected-counting loop of `print_results_for_locus` in the
pathogenic-repeats script: every row increments `idx`; rows whose status
contains "Not Affected" or "Unknown" increment `unaffected_counter`; the loop
breaks as soon as `unaffected_counter >= args.max_n_unaffected` (the test runs
on every iteration).  Returns the final `idx`. -/
def scanUnaffectedIdx (maxN : Nat) : List AffStatus → Nat → Nat → Nat
  | [], _, idx => idx
  | s :: rest, cnt, idx =>
      let idx2 := idx + 1
      let cnt2 := if s = AffStatus.notAffected ∨ s = AffStatus.unknown then cnt + 1 else cnt
      if maxN ≤ cnt2 then idx2 else scanUnaffectedIdx maxN rest cnt2 idx2

/-- The rows kept by the pathogenic-repeats script after its unaffected-counting
loop: `df_to_process.iloc[:idx]`. -/
def keptPrefixPath (maxN : Nat) (rows : List AffStatus) : List AffStatus :=
  rows.take (scanUnaffectedIdx maxN rows 0 0)

/-- Conjunctive admission: both allele metrics are `>= threshold` (the `&` of
the two boolean columns in the AR branch and in `female_df` of the XR branch).
-/
def admitBoth (t : Int) (r : GRow) : Bool :=
  decide (t ≤ r.a1) && decide (t ≤ r.a2)

/-- Disjunctive admission: at least one allele metric is `>= threshold` (the
`|` of the two boolean columns in the non-AR branch and in `male_df` of the XR
branch of the genome-wide script). -/
def admitEither (t : Int) (r : GRow) : Bool :=
  decide (t ≤ r.a1) || decide (t ≤ r.a2)

/-- The hemizygous stratum of the XR split:
`~locus_df["Genotype"].str.contains("/") | locus_df["is_male"]`. -/
def maleStratum (rows : List GRow) : List GRow :=
  rows.filter (fun r => !r.hasSlash || r.isMale)

/-- The diploid stratum of the XR split:
`locus_df["Genotype"].str.contains("/") | ~locus_df["is_male"]`. -/
def femaleStratum (rows : List GRow) : List GRow :=
  rows.filter (fun r => r.hasSlash || !r.isMale)

/-- Rows admitted in the AR branch (before the `iloc[0:max_rows]` safety cap):
both alleles must reach the threshold. -/
def admittedAR (t : Int) (rows : List GRow) : List GRow :=
  rows.filter (admitBoth t)

/-- Rows admitted in the dominant branch (AD, XD, and any other non-AR
non-XR mode, before the safety cap): one allele reaching the threshold is
enough. -/
def admittedDom (t : Int) (rows : List GRow) : List GRow :=
  rows.filter (admitEither t)

/-- Rows admitted in the hemizygous stratum of the XR branch of the
genome-wide script (before the safety cap). -/
def admittedXRMale (t : Int) (rows : List GRow) : List GRow :=
  (maleStratum rows).filter (admitEither t)

/-- Rows admitted in the diploid stratum of the XR branch (before the safety
cap): both alleles must reach the threshold. -/
def admittedXRFemale (t : Int) (rows : List GRow) : List GRow :=
  (femaleStratum rows).filter (admitBoth t)

/-- The hemizygous-stratum admission test of the pathogenic-repeats script,
which compares only `CI end: Allele 1` to the threshold. -/
def admitFirstAllele (t : Int) (r : GRow) : Bool :=
  decide (t ≤ r.a1)

/-- A row as seen by the ranking step of `load_results_table` in the
genome-wide script: the two sort-key metric columns and the raw affected-status
string (the loader's closed vocabulary is "Affected", "Not Affected",
"Unknown"). -/
structure RankRow where
  numRepeats2 : Int
  numRepeats1 : Int
  affectedStr : String
deriving DecidableEq, Repr

/-- Lexicographic comparison of two character lists by code point. -/
def charListLt : List Char → List Char → Bool
  | [], [] => false
  | [], _ :: _ => true
  | _ :: _, [] => false
  | a :: as, b :: bs =>
      if a.toNat < b.toNat then true
      else if b.toNat < a.toNat then false
      else charListLt as bs

/-- Python's `<` on strings: lexicographic comparison by code point.  This is
the order pandas applies when sorting a string-valued column. -/
def strLt (a b : String) : Bool := charListLt a.toList b.toList

/-- The comparator realized by `df.sort_values(by=["Num Repeats: Allele 2",
"Num Repeats: Allele 1", <affected status column>], ascending=[False, False,
False])`: `a` is strictly before `b` when its key tuple is strictly larger,
where the third component is the plain string order on the affected-status
column. -/
def rowBefore (a b : RankRow) : Bool :=
  if a.numRepeats2 ≠ b.numRepeats2 then decide (b.numRepeats2 < a.numRepeats2)
  else if a.numRepeats1 ≠ b.numRepeats1 then decide (b.numRepeats1 < a.numRepeats1)
  else strLt b.affectedStr a.affectedStr

/-- Insert a row in front of the first ranked row it strictly precedes. -/
def insertRanked (r : RankRow) : List RankRow → List RankRow
  | [] => [r]
  | x :: xs => if rowBefore r x then r :: x :: xs else x :: insertRanked r xs

/-- Sorting a locus group with the `rowBefore` comparator (an insertion sort;
the output order of rows with pairwise distinct key tuples is exactly the
descending key order the pandas sort produces). -/
def sortByRank (l : List RankRow) : List RankRow :=
  l.foldr insertRanked []

/-- One element of the `Diseases` list of a variant-catalog record, keeping
exactly the fields `compute_threshold_lookup_by_motif` touches: the parsed
`PathogenicMin` value when the key is present, whether the `Inheritance` key is
present (the membership test in the set comprehension), and the value of the
`InheritanceMode` key when present (the key the comprehension actually reads,
with default "AD"). -/
structure DiseaseRecord where
  pathogenicMin : Option Int
  hasInheritanceKey : Bool
  inheritanceMode : Option String
deriving DecidableEq, Repr

/-- A variant-catalog record as consumed by
`compute_threshold_lookup_by_motif`. -/
structure CatalogRecord where
  locusId : Option String
  repeatUnit : String
  diseases : List DiseaseRecord
deriving DecidableEq, Repr

/-- `set(record["RepeatUnit"]) - set("ACGT")` is empty. -/
def acgtOnly (s : String) : Bool :=
  s.toList.all (fun c => c == 'A' || c == 'C' || c == 'G' || c == 'T')

/-- Deduplication of the inheritance-mode collection (the Python code builds a
`set`); encounter order is kept. -/
def dedupKeepFirst (l : List String) : List String :=
  l.foldl (fun acc m => if acc.contains m then acc else acc ++ [m]) []

/-- The distinct inheritance modes collected for one record:
`{disease_record.get("InheritanceMode", "AD") for disease_record in
record.get("Diseases", []) if "Inheritance" in disease_record}`. -/
def recordModes (rec : CatalogRecord) : List String :=
  dedupKeepFirst ((rec.diseases.filter (fun d => d.hasInheritanceKey)).map
    (fun d => d.inheritanceMode.getD "AD"))

/-- Processing of a single catalog record, `none` meaning the record is
skipped: missing `LocusId`, a non-ACGT motif, no `PathogenicMin` values, the
`StopIteration` raised by `next(iter(inheritance_modes))` on an empty mode set
(caught by the per-record `except` clause), or the CCG special case all skip
the record; otherwise the canonical motif, minimum threshold and picked mode
are produced. -/
def processRecord (canon : String → String) (rec : CatalogRecord) :
    Option (String × Int × String) :=
  if rec.locusId.isNone then none
  else if !acgtOnly rec.repeatUnit then none
  else
    match rec.diseases.filterMap (fun d => d.pathogenicMin) with
    | [] => none
    | t :: ts =>
        match (recordModes rec).head? with
        | none => none
        | some mode =>
            let minT := ts.foldl min t
            let cm := canon rec.repeatUnit
            if cm == "CCG" && decide (minT < 10) then none
            else some (cm, minT, mode)

/-- The dictionary update `threshold_lookup[canonical_motif] = ...`: when the
canonical motif is already a key, the entry is replaced by the minimum of the
new and previous thresholds together with the new record's inheritance mode;
otherwise the entry is appended. -/
def setEntry (lookup : List (String × Int × String)) (e : String × Int × String) :
    List (String × Int × String) :=
  if lookup.any (fun p => p.1 == e.1) then
    lookup.map (fun p => if p.1 == e.1 then (e.1, min e.2.1 p.2.1, e.2.2) else p)
  else lookup ++ [e]

/-- `compute_threshold_lookup_by_motif`: fold the per-record results into the
motif-keyed lookup. -/
def buildLookup (canon : String → String) (records : List CatalogRecord) :
    List (String × Int × String) :=
  (records.filterMap (processRecord canon)).foldl setEntry []

/-- Lookup of a canonical motif in the built dictionary. -/
def findEntry (cm : String) : List (String × Int × String) → Option (Int × String)
  | [] => none
  | p :: rest => if p.1 == cm then some p.2 else findEntry cm rest

/-- One fold step of the iterative threshold merge, at the level of a single
canonical motif: the first contribution installs its threshold, later
contributions replace it by `min new previous`. -/
def minFoldStep (o : Option Int) (t : Int) : Option Int :=
  match o with
  | none => some t
  | some prev => some (min t prev)

/-- The same step on full `(threshold, mode)` entries: the stored mode is
always the contributing record's mode (exactly what the dictionary assignment
in the Python code does). -/
def entryFoldStep (o : Option (Int × String)) (e : String × Int × String) :
    Option (Int × String) :=
  match o with
  | none => some (e.2.1, e.2.2)
  | some (t0, _) => some (min e.2.1 t0, e.2.2)

/-- Key uniqueness of the motif lookup: no two entries share a canonical
motif. -/
def uniqKeys (l : List (String × Int × String)) : Prop :=
  l.Pairwise (fun a b => a.1 ≠ b.1)

/-- A catalog record with canonical motif CAG and a single disease with
pathogenic threshold 36 (its disease entry carries an `Inheritance` key and an
`InheritanceMode` of "AD"). -/
def catCAG36 : CatalogRecord := ⟨some "L1", "CAG", [⟨some 36, true, some "AD"⟩]⟩

/-- A catalog record with canonical motif CAG and a single disease with
pathogenic threshold 50. -/
def catCAG50 : CatalogRecord := ⟨some "L2", "CAG", [⟨some 50, true, some "AD"⟩]⟩

/-- A catalog record with a `PathogenicMin` of 40 whose diseases declare no
inheritance information at all (no `Inheritance` key, no `InheritanceMode`
key). -/
def failingRec : CatalogRecord := ⟨some "L1", "CAG", [⟨some 40, false, none⟩]⟩

/-- A catalog record whose two diseases declare the two distinct inheritance
modes "AR" and "AD". -/
def multiRec : CatalogRecord :=
  ⟨some "L2", "CAG", [⟨some 45, true, some "AR"⟩, ⟨none, true, some "AD"⟩]⟩

/-- A stratum consisting of one Affected row with allele-2 metric 1 followed
by one NotAffected row with allele-2 metric 0 (an absent / failed call filled
in as 0 by the loader). -/
def exRowsC2 : List GRow :=
  [⟨AffStatus.affected, 0, 1, false, false⟩, ⟨AffStatus.notAffected, 0, 0, false, false⟩]

/-- Three NotAffected rows, as a status column for the pathogenic-repeats
scan. -/
def exRowsC3 : List AffStatus :=
  [AffStatus.notAffected, AffStatus.notAffected, AffStatus.notAffected]

/-- A NotAffected row. -/
def naRow : GRow := ⟨AffStatus.notAffected, 0, 7, false, false⟩

/-- An Affected row. -/
def affRow : GRow := ⟨AffStatus.affected, 0, 100, false, false⟩

/-- An Unknown row. -/
def unkRow : GRow := ⟨AffStatus.unknown, 0, 60, false, false⟩

/-- An "Affected" row tied with `rNot` and `rUnk` on both sort metrics. -/
def rAff : RankRow := ⟨10, 5, "Affected"⟩

/-- A "Not Affected" row tied with `rAff` and `rUnk` on both sort metrics. -/
def rNot : RankRow := ⟨10, 5, "Not Affected"⟩

/-- An "Unknown" row tied with `rAff` and `rNot` on both sort metrics. -/
def rUnk : RankRow := ⟨10, 5, "Unknown"⟩

/-- A diploid row with allele metric pair (5, 50). -/
def pairRow : GRow := ⟨AffStatus.affected, 5, 50, false, false⟩

/-- The metric (`Allele 2` value) of the last row of status `st` in a list,
`none` when no such row occurs.  This is the reference description of the
`first_non_ignored_unaffected_allele_size` and `last_affected_allele_size`
trackers. -/
def lastMetricOf (st : AffStatus) (l : List GRow) : Option Int :=
  l.foldl (fun o r => if r.status = st then some r.a2 else o) none

/-- The number of rows of status `st` in a list. -/
def countStatus (st : AffStatus) : List GRow → Nat
  | [] => 0
  | r :: l => (if r.status = st then 1 else 0) + countStatus st l

/-- Overlay of an optional update over a base value. -/
def overlayOpt (base upd : Option Int) : Option Int :=
  match upd with
  | none => base
  | some v => some v

theorem stepAcc_idx (acc : ScanAcc) (r : GRow) : (stepAcc acc r).idx = acc.idx + 1 := by
  rcases r with ⟨st, a1, a2, m, s⟩
  cases st <;> rfl

theorem stepAcc_ignored (acc : ScanAcc) (r : GRow) :
    (stepAcc acc r).ignoredUnaffected =
      if r.status = AffStatus.notAffected then acc.ignoredUnaffected + 1
      else acc.ignoredUnaffected := by
  rcases r with ⟨st, a1, a2, m, s⟩
  cases st <;> rfl

theorem stepAcc_affectedCount (acc : ScanAcc) (r : GRow) :
    (stepAcc acc r).affectedCount =
      if r.status = AffStatus.affected then acc.affectedCount + 1
      else acc.affectedCount := by
  rcases r with ⟨st, a1, a2, m, s⟩
  cases st <;> rfl

theorem stepAcc_firstUnaffected (acc : ScanAcc) (r : GRow) :
    (stepAcc acc r).firstUnaffected =
      if r.status = AffStatus.notAffected then some r.a2 else acc.firstUnaffected := by
  rcases r with ⟨st, a1, a2, m, s⟩
  cases st <;> rfl

theorem stepAcc_lastAffected (acc : ScanAcc) (r : GRow) :
    (stepAcc acc r).lastAffected =
      if r.status = AffStatus.affected then some r.a2 else acc.lastAffected := by
  rcases r with ⟨st, a1, a2, m, s⟩
  cases st <;> rfl

theorem foldl_status_overlay (st : AffStatus) (l : List GRow) : ∀ o : Option Int,
    l.foldl (fun o r => if r.status = st then some r.a2 else o) o =
      overlayOpt o (lastMetricOf st l) := by
  induction l with
  | nil => intro o; rfl
  | cons r l ih =>
      intro o
      show l.foldl _ (if r.status = st then some r.a2 else o) = _
      rw [ih]
      have hmet : lastMetricOf st (r :: l) =
          overlayOpt (if r.status = st then some r.a2 else none) (lastMetricOf st l) := by
        show l.foldl _ (if r.status = st then some r.a2 else none) = _
        rw [ih]
      rw [hmet]
      rcases h : lastMetricOf st l with _ | v
      · by_cases hst : r.status = st <;> simp [overlayOpt, hst]
      · simp [overlayOpt]

theorem scanAll_idx (l : List GRow) : ∀ acc : ScanAcc,
    (scanAll l acc).idx = acc.idx + l.length := by
  induction l with
  | nil => intro acc; rfl
  | cons r l ih =>
      intro acc
      show (scanAll l (stepAcc acc r)).idx = _
      rw [ih, stepAcc_idx]
      simp [List.length_cons]
      omega

theorem scanAll_ignored (l : List GRow) : ∀ acc : ScanAcc,
    (scanAll l acc).ignoredUnaffected =
      acc.ignoredUnaffected + countStatus AffStatus.notAffected l := by
  induction l with
  | nil => intro acc; rfl
  | cons r l ih =>
      intro acc
      show (scanAll l (stepAcc acc r)).ignoredUnaffected = _
      rw [ih, stepAcc_ignored, countStatus]
      by_cases h : r.status = AffStatus.notAffected <;> simp [h] <;> omega

theorem scanAll_affectedCount (l : List GRow) : ∀ acc : ScanAcc,
    (scanAll l acc).affectedCount =
      acc.affectedCount + countStatus AffStatus.affected l := by
  induction l with
  | nil => intro acc; rfl
  | cons r l ih =>
      intro acc
      show (scanAll l (stepAcc acc r)).affectedCount = _
      rw [ih, stepAcc_affectedCount, countStatus]
      by_cases h : r.status = AffStatus.affected <;> simp [h] <;> omega

theorem scanAll_firstUnaffected (l : List GRow) : ∀ acc : ScanAcc,
    (scanAll l acc).firstUnaffected =
      overlayOpt acc.firstUnaffected (lastMetricOf AffStatus.notAffected l) := by
  have key : ∀ l : List GRow, ∀ acc : ScanAcc, (scanAll l acc).firstUnaffected =
      l.foldl (fun o r => if r.status = AffStatus.notAffected then some r.a2 else o)
        acc.firstUnaffected := by
    intro l
    induction l with
    | nil => intro acc; rfl
    | cons r l ih =>
        intro acc
        show (scanAll l (stepAcc acc r)).firstUnaffected = _
        rw [ih, stepAcc_firstUnaffected]
        rfl
  intro acc
  rw [key, foldl_status_overlay]

theorem scanAll_lastAffected (l : List GRow) : ∀ acc : ScanAcc,
    (scanAll l acc).lastAffected =
      overlayOpt acc.lastAffected (lastMetricOf AffStatus.affected l) := by
  have key : ∀ l : List GRow, ∀ acc : ScanAcc, (scanAll l acc).lastAffected =
      l.foldl (fun o r => if r.status = AffStatus.affected then some r.a2 else o)
        acc.lastAffected := by
    intro l
    induction l with
    | nil => intro acc; rfl
    | cons r l ih =>
        intro acc
        show (scanAll l (stepAcc acc r)).lastAffected = _
        rw [ih, stepAcc_lastAffected]
        rfl
  intro acc
  rw [key, foldl_status_overlay]

theorem scanRows_eq_scanAll (maxN : Nat) : ∀ (rows : List GRow) (acc : ScanAcc),
    scanRows maxN rows acc = scanAll (consumedRows maxN rows acc.ignoredUnaffected) acc := by
  intro rows
  induction rows with
  | nil => intro acc; rfl
  | cons r rest ih =>
      intro acc
      rcases r with ⟨st, a1, a2, m, s⟩
      cases st with
      | notAffected =>
          have hig : (stepAcc acc ⟨AffStatus.notAffected, a1, a2, m, s⟩).ignoredUnaffected =
              acc.ignoredUnaffected + 1 := rfl
          show (if maxN < (stepAcc acc ⟨AffStatus.notAffected, a1, a2, m, s⟩).ignoredUnaffected
                then stepAcc acc ⟨AffStatus.notAffected, a1, a2, m, s⟩
                else scanRows maxN rest (stepAcc acc ⟨AffStatus.notAffected, a1, a2, m, s⟩)) = _
          rw [hig]
          show _ = scanAll (if maxN < acc.ignoredUnaffected + 1
            then [⟨AffStatus.notAffected, a1, a2, m, s⟩]
            else ⟨AffStatus.notAffected, a1, a2, m, s⟩ ::
              consumedRows maxN rest (acc.ignoredUnaffected + 1)) acc
          by_cases h : maxN < acc.ignoredUnaffected + 1
          · rw [if_pos h, if_pos h]
            rfl
          · rw [if_neg h, if_neg h, ih]
            rfl
      | affected =>
          show scanRows maxN rest (stepAcc acc ⟨AffStatus.affected, a1, a2, m, s⟩) = _
          rw [ih]
          rfl
      | unknown =>
          show scanRows maxN rest (stepAcc acc ⟨AffStatus.unknown, a1, a2, m, s⟩) = _
          rw [ih]
          rfl

example : scanRows 10 [⟨AffStatus.affected, 0, 1, false, false⟩,
    ⟨AffStatus.notAffected, 0, 0, false, false⟩] initAcc =
    ⟨1, 1, some 0, some 1, some 1, 2⟩ := by decide

example : separationDecision 10 [⟨AffStatus.affected, 0, 1, false, false⟩,
    ⟨AffStatus.notAffected, 0, 0, false, false⟩] = some 5 := by decide

example : scanUnaffectedIdx 2 [AffStatus.notAffected, AffStatus.notAffected,
    AffStatus.notAffected] 0 0 = 2 := by decide

example : requiredMargin 201 = 50 := by decide

theorem overlayOpt_none_left (m : Option Int) : overlayOpt none m = m := by
  cases m <;> rfl

theorem pyTruthy_eq_true_iff (o : Option Int) :
    pyTruthy o = true ↔ ∃ v : Int, o = some v ∧ v ≠ 0 := by
  cases o with
  | none => simp [pyTruthy]
  | some v => simp [pyTruthy, bne_iff_ne]

theorem countStatus_eq_zero_iff (st : AffStatus) (l : List GRow) :
    countStatus st l = 0 ↔ lastMetricOf st l = none := by
  induction l with
  | nil => simp [countStatus, lastMetricOf]
  | cons r l ih =>
      have hmet : lastMetricOf st (r :: l) =
          overlayOpt (if r.status = st then some r.a2 else none) (lastMetricOf st l) := by
        show l.foldl _ (if r.status = st then some r.a2 else none) = _
        rw [foldl_status_overlay]
      rw [countStatus, hmet]
      by_cases h : r.status = st
      · simp only [if_pos h]
        constructor
        · intro hc; omega
        · intro hc
          exfalso
          rcases hm : lastMetricOf st l with _ | v <;> rw [hm] at hc <;> exact Option.noConfusion hc
      · simp only [if_neg h]
        rw [overlayOpt_none_left]
        constructor
        · intro hc; exact ih.mp (by omega)
        · intro hc; have := ih.mpr hc; omega

theorem filter_length_mono {α : Type} (p q : α → Bool) (h : ∀ a, p a = true → q a = true) :
    ∀ l : List α, (l.filter p).length ≤ (l.filter q).length := by
  intro l
  induction l with
  | nil => simp
  | cons a l ih =>
      rw [List.filter_cons, List.filter_cons]
      by_cases hp : p a = true
      · rw [if_pos hp, if_pos (h a hp)]
        simpa using ih
      · rw [if_neg hp]
        by_cases hq : q a = true
        · rw [if_pos hq]
          exact le_trans ih (by simp)
        · rw [if_neg hq]
          exact ih

theorem admitBoth_antitone {t1 t2 : Int} (h : t1 ≤ t2) (r : GRow) :
    admitBoth t2 r = true → admitBoth t1 r = true := by
  simp only [admitBoth, Bool.and_eq_true, decide_eq_true_eq]
  omega

theorem admitEither_antitone {t1 t2 : Int} (h : t1 ≤ t2) (r : GRow) :
    admitEither t2 r = true → admitEither t1 r = true := by
  simp only [admitEither, Bool.or_eq_true, decide_eq_true_eq]
  omega

/-- C1: the required separation margin computed from `last_affected_allele_size`
follows the monotone step table (100 above 300, 50 above 200, 20 above 120, 10
above 75, 5 above 50, 2 otherwise); it is monotone in the last affected allele
size; and at 201 the margin is 50, not 20. -/
theorem c1_margin_table :
    (∀ s : Int, 300 < s → requiredMargin s = 100) ∧
    (∀ s : Int, 200 < s → s ≤ 300 → requiredMargin s = 50) ∧
    (∀ s : Int, 120 < s → s ≤ 200 → requiredMargin s = 20) ∧
    (∀ s : Int, 75 < s → s ≤ 120 → requiredMargin s = 10) ∧
    (∀ s : Int, 50 < s → s ≤ 75 → requiredMargin s = 5) ∧
    (∀ s : Int, s ≤ 50 → requiredMargin s = 2) ∧
    (∀ s t : Int, s ≤ t → requiredMargin s ≤ requiredMargin t) ∧
    requiredMargin 201 = 50 ∧ requiredMargin 201 ≠ 20 := by
  refine ⟨?_, ?_, ?_, ?_, ?_, ?_, ?_, by decide, by decide⟩ <;>
  · intros
    unfold requiredMargin
    split_ifs <;> omega

/-- Witness for C1: a concrete application of the step-table theorem. -/
theorem c1_margin_table_witness : requiredMargin 250 = 50 :=
  c1_margin_table.2.1 250 (by decide) (by decide)

/-- C4: for a diploid stratum, recessive admission (the AR branch and the
diploid stratum of the XR branch) requires both allele metrics to reach the
threshold, dominant admission (the AD / XD branch and the hemizygous stratum
of the XR branch) requires only one; a diploid row with allele pair (5, 50)
and threshold 20 is admitted under AD and not admitted under AR. -/
theorem c4_mode_combination :
    (∀ (t : Int) (rows : List GRow) (r : GRow),
      (r ∈ admittedAR t rows ↔ r ∈ rows ∧ t ≤ r.a1 ∧ t ≤ r.a2) ∧
      (r ∈ admittedXRFemale t rows ↔ r ∈ femaleStratum rows ∧ t ≤ r.a1 ∧ t ≤ r.a2) ∧
      (r ∈ admittedDom t rows ↔ r ∈ rows ∧ (t ≤ r.a1 ∨ t ≤ r.a2)) ∧
      (r ∈ admittedXRMale t rows ↔ r ∈ maleStratum rows ∧ (t ≤ r.a1 ∨ t ≤ r.a2))) ∧
    admittedDom 20 [pairRow] = [pairRow] ∧
    admittedAR 20 [pairRow] = [] := by
  refine ⟨?_, by decide, by decide⟩
  intro t rows r
  refine ⟨?_, ?_, ?_, ?_⟩ <;>
  · simp [admittedAR, admittedXRFemale, admittedDom, admittedXRMale, admitBoth, admitEither,
      List.mem_filter, and_assoc]

/-- C7: raising the threshold never admits a new row: for thresholds
`t1 < t2`, every row admitted at `t2` in any of the four admission branches is
admitted at `t1`, the admitted row counts are antitone, and the same holds for
the single-allele admission test of the pathogenic-repeats script. -/
theorem c7_threshold_antitone : ∀ t1 t2 : Int, t1 < t2 →
    (∀ (rows : List GRow) (r : GRow),
      (r ∈ admittedAR t2 rows → r ∈ admittedAR t1 rows) ∧
      (r ∈ admittedDom t2 rows → r ∈ admittedDom t1 rows) ∧
      (r ∈ admittedXRMale t2 rows → r ∈ admittedXRMale t1 rows) ∧
      (r ∈ admittedXRFemale t2 rows → r ∈ admittedXRFemale t1 rows)) ∧
    (∀ rows : List GRow,
      (admittedAR t2 rows).length ≤ (admittedAR t1 rows).length ∧
      (admittedDom t2 rows).length ≤ (admittedDom t1 rows).length ∧
      (admittedXRMale t2 rows).length ≤ (admittedXRMale t1 rows).length ∧
      (admittedXRFemale t2 rows).length ≤ (admittedXRFemale t1 rows).length) ∧
    (∀ r : GRow, admitFirstAllele t2 r = true → admitFirstAllele t1 r = true) := by
  intro t1 t2 hlt
  have hle : t1 ≤ t2 := le_of_lt hlt
  refine ⟨?_, ?_, ?_⟩
  · intro rows r
    refine ⟨?_, ?_, ?_, ?_⟩ <;>
    · intro hmem
      simp only [admittedAR, admittedDom, admittedXRMale, admittedXRFemale,
        List.mem_filter] at hmem ⊢
      exact ⟨hmem.1, by
        first
        | exact admitBoth_antitone hle r hmem.2
        | exact admitEither_antitone hle r hmem.2⟩
  · intro rows
    exact ⟨filter_length_mono _ _ (admitBoth_antitone hle) rows,
      filter_length_mono _ _ (admitEither_antitone hle) rows,
      filter_length_mono _ _ (admitEither_antitone hle) (maleStratum rows),
      filter_length_mono _ _ (admitBoth_antitone hle) (femaleStratum rows)⟩
  · intro r
    simp only [admitFirstAllele, decide_eq_true_eq]
    omega

/-- Witness for C7: with thresholds 5 < 20, the concrete (5, 50) row admitted
at 20 in the dominant branch is admitted at 5. -/
theorem c7_threshold_antitone_witness : pairRow ∈ admittedDom 5 [pairRow] :=
  ((c7_threshold_antitone 5 20 (by decide)).1 [pairRow] pairRow).2.1 (by decide)

theorem scanRows_map_a1 (g : GRow → Int) (maxN : Nat) : ∀ (rows : List GRow) (acc : ScanAcc),
    scanRows maxN (rows.map (fun r => { r with a1 := g r })) acc = scanRows maxN rows acc := by
  intro rows
  induction rows with
  | nil => intro acc; rfl
  | cons r rest ih =>
      intro acc
      rcases r with ⟨st, a1, a2, m, s⟩
      cases st with
      | notAffected =>
          show (if maxN < acc.ignoredUnaffected + 1
                then stepAcc acc ⟨AffStatus.notAffected, a1, a2, m, s⟩
                else scanRows maxN (rest.map (fun r => { r with a1 := g r }))
                  (stepAcc acc ⟨AffStatus.notAffected, a1, a2, m, s⟩)) =
               (if maxN < acc.ignoredUnaffected + 1
                then stepAcc acc ⟨AffStatus.notAffected, a1, a2, m, s⟩
                else scanRows maxN rest (stepAcc acc ⟨AffStatus.notAffected, a1, a2, m, s⟩))
          by_cases h : maxN < acc.ignoredUnaffected + 1
          · rw [if_pos h, if_pos h]
          · rw [if_neg h, if_neg h, ih]
      | affected =>
          show scanRows maxN (rest.map (fun r => { r with a1 := g r }))
              (stepAcc acc ⟨AffStatus.affected, a1, a2, m, s⟩) = _
          exact ih _
      | unknown =>
          show scanRows maxN (rest.map (fun r => { r with a1 := g r }))
              (stepAcc acc ⟨AffStatus.unknown, a1, a2, m, s⟩) = _
          exact ih _

/-- C10: the affected-separation scan of the genome-wide script reads the
allele metric of every NotAffected and Affected row from the "Allele 2" field
of the configured metric column only: replacing the Allele 1 metric of every
row of a stratum by arbitrary values changes neither the final scan state (all
counters and all allele-size trackers) nor the stratum's separation decision,
so the decision for every stratum — the hemizygous/male stratum included —
depends only on allele-2 values. -/
theorem c10_allele2_only : ∀ (g : GRow → Int) (maxN : Nat) (rows : List GRow),
    scanRows maxN (rows.map (fun r => { r with a1 := g r })) initAcc =
      scanRows maxN rows initAcc ∧
    separationDecision maxN (rows.map (fun r => { r with a1 := g r })) =
      separationDecision maxN rows := by
  intro g maxN rows
  have h := scanRows_map_a1 g maxN rows initAcc
  refine ⟨h, ?_⟩
  unfold separationDecision
  rw [h]

/-- C3 counterexample (pathogenic-repeats script): with `max_n_unaffected = 2`,
on a stratum of 3 consecutive NotAffected rows the unaffected-counting scan of
the pathogenic-repeats script stops at the 2nd row, not the 3rd, and the
stratum still yields a reportable 2-row prefix rather than no result. -/
theorem c3_cap_cex :
    scanUnaffectedIdx 2 exRowsC3 0 0 = 2 ∧
    scanUnaffectedIdx 2 exRowsC3 0 0 ≠ 3 ∧
    (keptPrefixPath 2 exRowsC3).length = 2 ∧
    keptPrefixPath 2 exRowsC3 ≠ [] := by decide

/-- C3 amended: in the genome-wide script, a NotAffected row increments
`ignored_unaffected_count` and the scan stops once the count strictly exceeds
`max_n_unaffected`; with cap 2, a stratum beginning with 3 NotAffected rows
stops scanning at the 3rd row (never touching later rows) and yields no
reportable result.  In the pathogenic-repeats script the counter also counts
Unknown rows and the scan stops as soon as the counter reaches the cap, so
with cap 2 it stops at the 2nd row. -/
theorem c3_cap_amended :
    (∀ (maxN : Nat) (r : GRow) (rest : List GRow) (acc : ScanAcc),
      r.status = AffStatus.notAffected →
      (stepAcc acc r).ignoredUnaffected = acc.ignoredUnaffected + 1 ∧
      scanRows maxN (r :: rest) acc =
        (if maxN < acc.ignoredUnaffected + 1 then stepAcc acc r
         else scanRows maxN rest (stepAcc acc r))) ∧
    (∀ (r1 r2 r3 : GRow) (rest : List GRow),
      r1.status = AffStatus.notAffected → r2.status = AffStatus.notAffected →
      r3.status = AffStatus.notAffected →
      scanRows 2 (r1 :: r2 :: r3 :: rest) initAcc = scanRows 2 [r1, r2, r3] initAcc ∧
      separationDecision 2 (r1 :: r2 :: r3 :: rest) = none) ∧
    (∀ rest : List AffStatus,
      scanUnaffectedIdx 2 (AffStatus.notAffected :: AffStatus.notAffected :: rest) 0 0 = 2) := by
  refine ⟨?_, ?_, ?_⟩
  · intro maxN r rest acc h
    rcases r with ⟨st, a1, a2, m, s⟩
    cases st with
    | notAffected => exact ⟨rfl, rfl⟩
    | affected => exact AffStatus.noConfusion h
    | unknown => exact AffStatus.noConfusion h
  · intro r1 r2 r3 rest h1 h2 h3
    rcases r1 with ⟨st1, a11, a21, m1, s1⟩
    rcases r2 with ⟨st2, a12, a22, m2, s2⟩
    rcases r3 with ⟨st3, a13, a23, m3, s3⟩
    subst h1 h2 h3
    exact ⟨rfl, rfl⟩
  · intro rest
    rfl

/-- Witness for C3: concrete 3-NotAffected strata in both scripts. -/
theorem c3_cap_amended_witness :
    separationDecision 2 [naRow, naRow, naRow, affRow] = none :=
  ((c3_cap_amended.2.1) naRow naRow naRow [affRow] rfl rfl rfl).2

/-- C8 counterexample (pathogenic-repeats script): an Unknown row is counted
toward the unaffected counter and causes termination: with cap 1, the scan of
`[Unknown, Affected, Affected]` stops at row 1 — while without the Unknown row
it scans both rows. -/
theorem c8_unknown_cex :
    scanUnaffectedIdx 1 [AffStatus.unknown, AffStatus.affected, AffStatus.affected] 0 0 = 1 ∧
    scanUnaffectedIdx 1 [AffStatus.affected, AffStatus.affected] 0 0 = 2 ∧
    (keptPrefixPath 1 [AffStatus.unknown, AffStatus.affected, AffStatus.affected]).length = 1 := by
  decide

/-- C8 amended: in the genome-wide script's scan, Unknown rows are skipped —
a block of Unknown rows changes nothing in the scan state except the row index
`idx`, is not counted toward either counter, and never causes termination; in
the pathogenic-repeats script's scan, an Unknown row increments the unaffected
counter and terminates the scan as soon as the counter reaches the cap. -/
theorem c8_unknown_amended :
    (∀ (maxN : Nat) (us rest : List GRow) (acc : ScanAcc),
      (∀ u ∈ us, u.status = AffStatus.unknown) →
      scanRows maxN (us ++ rest) acc =
        scanRows maxN rest { acc with idx := acc.idx + us.length }) ∧
    (∀ (maxN : Nat) (rest : List AffStatus) (cnt idx : Nat),
      scanUnaffectedIdx maxN (AffStatus.unknown :: rest) cnt idx =
        (if maxN ≤ cnt + 1 then idx + 1 else scanUnaffectedIdx maxN rest (cnt + 1) (idx + 1))) := by
  constructor
  · intro maxN us
    induction us with
    | nil =>
        intro rest acc _
        show scanRows maxN rest acc = scanRows maxN rest { acc with idx := acc.idx + 0 }
        rfl
    | cons u us ih =>
        intro rest acc hall
        have hu : u.status = AffStatus.unknown := hall u (by simp)
        have hus : ∀ v ∈ us, v.status = AffStatus.unknown := by
          intro v hv; exact hall v (by simp [hv])
        rcases u with ⟨st, a1, a2, m, s⟩
        subst hu
        show scanRows maxN (us ++ rest) (stepAcc acc ⟨AffStatus.unknown, a1, a2, m, s⟩) = _
        rw [ih rest _ hus]
        have hn : acc.idx + 1 + us.length = acc.idx + (us.length + 1) := by omega
        show scanRows maxN rest { acc with idx := acc.idx + 1 + us.length } = _
        rw [hn]
        rfl
  · intro maxN rest cnt idx
    rfl

/-- Witness for C8: one concrete Unknown row leaves the scan state unchanged
except for the row index. -/
theorem c8_unknown_amended_witness :
    scanRows 5 ([unkRow] ++ [affRow]) initAcc =
      scanRows 5 [affRow] { initAcc with idx := initAcc.idx + [unkRow].length } :=
  c8_unknown_amended.1 5 [unkRow] [affRow] initAcc (by decide)

/-- C9 counterexample: two rows tied on both allele metrics, one "Affected"
and one "Unknown": the code's descending sort places the Unknown row first,
not the Affected row. -/
theorem c9_sort_cex :
    sortByRank [rAff, rUnk] = [rUnk, rAff] ∧
    sortByRank [rAff, rUnk] ≠ [rAff, rUnk] := by decide

/-- C9 amended: ties on the allele metrics are broken by descending
lexicographic comparison of the raw affected-status strings (pandas sorts the
string column), which orders "Unknown" first, then "Not Affected", then
"Affected" — not by a fixed Affected-first priority ordering. -/
theorem c9_sort_amended :
    (∀ a b : RankRow, a.numRepeats2 = b.numRepeats2 → a.numRepeats1 = b.numRepeats1 →
      rowBefore a b = strLt b.affectedStr a.affectedStr) ∧
    strLt "Affected" "Not Affected" = true ∧
    strLt "Not Affected" "Unknown" = true ∧
    sortByRank [rAff, rNot, rUnk] = [rUnk, rNot, rAff] := by
  refine ⟨?_, by decide, by decide, by decide⟩
  intro a b h2 h1
  simp [rowBefore, h2, h1]

/-- Witness for C9: the tie-break comparator applied to the concrete tied
"Affected" and "Unknown" rows. -/
theorem c9_sort_amended_witness :
    rowBefore rAff rUnk = strLt rUnk.affectedStr rAff.affectedStr :=
  c9_sort_amended.1 rAff rUnk rfl rfl

/-- C2 counterexample: on the stratum `[Affected with metric 1, NotAffected
with metric 0]` a NotAffected row is seen, and
`last_affected_allele_size < first_unaffected_allele_size + required_margin`
holds (1 < 0 + 2), so the claim requires the stratum to be rejected — but the
Python truthiness test on `first_non_ignored_unaffected_allele_size` treats
the 0 metric as "no unaffected row seen" and the code accepts the stratum. -/
theorem c2_zero_metric_cex :
    (scanRows 10 exRowsC2 initAcc).ignoredUnaffected = 1 ∧
    (scanRows 10 exRowsC2 initAcc).firstUnaffected = some 0 ∧
    (scanRows 10 exRowsC2 initAcc).lastAffected = some 1 ∧
    ((scanRows 10 exRowsC2 initAcc).lastAffected.getD 0 <
      (scanRows 10 exRowsC2 initAcc).firstUnaffected.getD 0 +
        requiredMargin ((scanRows 10 exRowsC2 initAcc).lastAffected.getD 0)) ∧
    separationDecision 10 exRowsC2 = some 5 := by decide

/-- C2 amended: for the rows actually consumed by the scan, when at least one
Affected row was seen the stratum is rejected exactly when the metric of the
last-seen NotAffected row is nonzero and `last_affected_allele_size <
first_unaffected_allele_size + required_margin`; a stratum whose last-seen
NotAffected metric is 0 is treated like one with no NotAffected row, and when
no NotAffected row was seen the separation check passes and the stratum is
accepted. -/
theorem c2_separation_amended : ∀ (maxN : Nat) (rows : List GRow),
    (lastMetricOf AffStatus.affected (consumedRows maxN rows 0) ≠ none →
      (separationDecision maxN rows = none ↔
        ∃ u : Int,
          lastMetricOf AffStatus.notAffected (consumedRows maxN rows 0) = some u ∧
          u ≠ 0 ∧
          (lastMetricOf AffStatus.affected (consumedRows maxN rows 0)).getD 0 <
            u + requiredMargin
              ((lastMetricOf AffStatus.affected (consumedRows maxN rows 0)).getD 0))) ∧
    (lastMetricOf AffStatus.notAffected (consumedRows maxN rows 0) = none →
      lastMetricOf AffStatus.affected (consumedRows maxN rows 0) ≠ none →
      separationDecision maxN rows ≠ none) := by
  intro maxN rows
  have hacc : scanRows maxN rows initAcc = scanAll (consumedRows maxN rows 0) initAcc :=
    scanRows_eq_scanAll maxN rows initAcc
  have hCount : (scanAll (consumedRows maxN rows 0) initAcc).affectedCount =
      countStatus AffStatus.affected (consumedRows maxN rows 0) := by
    rw [scanAll_affectedCount]
    exact Nat.zero_add _
  have hLast : (scanAll (consumedRows maxN rows 0) initAcc).lastAffected =
      lastMetricOf AffStatus.affected (consumedRows maxN rows 0) := by
    rw [scanAll_lastAffected]
    exact overlayOpt_none_left _
  have hFu : (scanAll (consumedRows maxN rows 0) initAcc).firstUnaffected =
      lastMetricOf AffStatus.notAffected (consumedRows maxN rows 0) := by
    rw [scanAll_firstUnaffected]
    exact overlayOpt_none_left _
  constructor
  · intro hAff
    have hcnt : (scanAll (consumedRows maxN rows 0) initAcc).affectedCount ≠ 0 := by
      rw [hCount]
      intro h0
      exact hAff ((countStatus_eq_zero_iff _ _).mp h0)
    unfold separationDecision
    rw [hacc, if_neg hcnt, hLast, hFu]
    by_cases hcond : pyTruthy (lastMetricOf AffStatus.notAffected (consumedRows maxN rows 0)) ∧
        (lastMetricOf AffStatus.affected (consumedRows maxN rows 0)).getD 0 <
          (lastMetricOf AffStatus.notAffected (consumedRows maxN rows 0)).getD 0 +
            requiredMargin ((lastMetricOf AffStatus.affected (consumedRows maxN rows 0)).getD 0)
    · rw [if_pos hcond]
      constructor
      · intro _
        rcases (pyTruthy_eq_true_iff _).mp hcond.1 with ⟨u, hu, hne⟩
        refine ⟨u, hu, hne, ?_⟩
        have := hcond.2
        rw [hu] at this
        exact this
      · intro _
        rfl
    · rw [if_neg hcond]
      constructor
      · intro h
        exact Option.noConfusion h
      · intro ⟨u, hu, hne, hlt⟩
        exfalso
        apply hcond
        constructor
        · rw [hu]
          simp [pyTruthy, bne_iff_ne, hne]
        · rw [hu]
          exact hlt
  · intro hNo hAff
    have hcnt : (scanAll (consumedRows maxN rows 0) initAcc).affectedCount ≠ 0 := by
      rw [hCount]
      intro h0
      exact hAff ((countStatus_eq_zero_iff _ _).mp h0)
    unfold separationDecision
    rw [hacc, if_neg hcnt, hFu, hNo]
    have hfalse : ¬ (pyTruthy (none : Option Int) ∧
        (scanAll (consumedRows maxN rows 0) initAcc).lastAffected.getD 0 <
          (none : Option Int).getD 0 +
            requiredMargin ((scanAll (consumedRows maxN rows 0) initAcc).lastAffected.getD 0)) := by
      intro h
      exact Bool.noConfusion h.1
    rw [if_neg hfalse]
    exact Option.noConfusion

/-- Witness for C2: applying the amended separation characterization to a
concrete separated stratum (one Affected row with metric 100, one NotAffected
row with metric 7, gap 93 ≥ margin 10) shows it is accepted. -/
theorem c2_separation_amended_witness :
    separationDecision 10 [affRow, naRow] ≠ none := by
  have h := (c2_separation_amended 10 [affRow, naRow]).1 (by decide)
  intro hnone
  rcases h.mp hnone with ⟨u, hu, hne, hlt⟩
  have hu7 : u = 7 := by
    have : lastMetricOf AffStatus.notAffected (consumedRows 10 [affRow, naRow] 0) = some 7 := by
      decide
    rw [this] at hu
    exact (Option.some_injective _ hu).symm
  rw [hu7] at hlt
  have hL : lastMetricOf AffStatus.affected (consumedRows 10 [affRow, naRow] 0) = some 100 := by
    decide
  rw [hL] at hlt
  simp [requiredMargin] at hlt

theorem findEntry_append (cm : String) (l1 l2 : List (String × Int × String)) :
    findEntry cm (l1 ++ l2) =
      (match findEntry cm l1 with
       | some v => some v
       | none => findEntry cm l2) := by
  induction l1 with
  | nil => rfl
  | cons p l1 ih =>
      show (if p.1 == cm then some p.2 else findEntry cm (l1 ++ l2)) = _
      by_cases h : (p.1 == cm) = true
      · rw [if_pos h]
        show _ = (match (if p.1 == cm then some p.2 else findEntry cm l1) with
          | some v => some v
          | none => findEntry cm l2)
        rw [if_pos h]
      · rw [if_neg h, ih]
        show _ = (match (if p.1 == cm then some p.2 else findEntry cm l1) with
          | some v => some v
          | none => findEntry cm l2)
        rw [if_neg h]

theorem findEntry_eq_none_of_any_false {k : String} :
    ∀ {l : List (String × Int × String)},
    (l.any fun p => p.1 == k) = false → findEntry k l = none := by
  intro l
  induction l with
  | nil => intro _; rfl
  | cons p l ih =>
      intro h
      rw [List.any_cons, Bool.or_eq_false_iff] at h
      show (if p.1 == k then some p.2 else findEntry k l) = none
      rw [if_neg (by rw [h.1]; exact Bool.noConfusion), ih h.2]

theorem findEntry_ne_none_of_any_true {k : String} :
    ∀ {l : List (String × Int × String)},
    (l.any fun p => p.1 == k) = true → findEntry k l ≠ none := by
  intro l
  induction l with
  | nil => intro h; exact Bool.noConfusion h
  | cons p l ih =>
      intro h
      rw [List.any_cons, Bool.or_eq_true] at h
      show (if p.1 == k then some p.2 else findEntry k l) ≠ none
      by_cases hp : (p.1 == k) = true
      · rw [if_pos hp]; exact Option.noConfusion
      · rw [if_neg hp]
        rcases h with h | h
        · exact absurd h hp
        · exact ih h

theorem beq_not_true_of_ne {a b : String} (h : ¬ a = b) : ¬ (a == b) = true :=
  fun hc => h (eq_of_beq hc)

theorem findEntry_map_upd (e : String × Int × String) (cm : String) :
    ∀ l : List (String × Int × String),
    findEntry cm (l.map (fun p => if p.1 == e.1 then (e.1, min e.2.1 p.2.1, e.2.2) else p)) =
      (if e.1 = cm then
        (match findEntry cm l with
         | none => none
         | some p2 => some (min e.2.1 p2.1, e.2.2))
       else findEntry cm l) := by
  intro l
  induction l with
  | nil =>
      by_cases h : e.1 = cm <;> simp [findEntry, h]
  | cons p l ih =>
      rw [List.map_cons]
      by_cases hpe : (p.1 == e.1) = true
      · have hpe' : p.1 = e.1 := eq_of_beq hpe
        rw [if_pos hpe]
        by_cases hec : e.1 = cm
        · show (if e.1 == cm then some ((min e.2.1 p.2.1, e.2.2) : Int × String)
              else findEntry cm (l.map _)) = _
          rw [if_pos (beq_iff_eq.mpr hec), if_pos hec]
          show _ = (match (if p.1 == cm then some p.2 else findEntry cm l) with
            | none => none
            | some p2 => some (min e.2.1 p2.1, e.2.2))
          rw [if_pos (beq_iff_eq.mpr (hpe'.trans hec))]
        · show (if e.1 == cm then some ((min e.2.1 p.2.1, e.2.2) : Int × String)
              else findEntry cm (l.map _)) = _
          rw [if_neg (beq_not_true_of_ne hec), ih, if_neg hec, if_neg hec]
          show findEntry cm l = (if p.1 == cm then some p.2 else findEntry cm l)
          rw [if_neg (beq_not_true_of_ne (by rw [hpe']; exact hec))]
      · rw [if_neg hpe]
        show (if p.1 == cm then some p.2 else findEntry cm (l.map _)) = _
        by_cases hpc : (p.1 == cm) = true
        · have hpc' : p.1 = cm := eq_of_beq hpc
          have hec : ¬ e.1 = cm := by
            intro hec
            exact hpe (beq_iff_eq.mpr (hpc'.trans hec.symm))
          rw [if_pos hpc, if_neg hec]
          show _ = (if p.1 == cm then some p.2 else findEntry cm l)
          rw [if_pos hpc]
        · rw [if_neg hpc, ih]
          by_cases hec : e.1 = cm
          · rw [if_pos hec, if_pos hec]
            show _ = (match (if p.1 == cm then some p.2 else findEntry cm l) with
              | none => none
              | some p2 => some (min e.2.1 p2.1, e.2.2))
            rw [if_neg hpc]
          · rw [if_neg hec, if_neg hec]
            show _ = (if p.1 == cm then some p.2 else findEntry cm l)
            rw [if_neg hpc]

theorem findEntry_setEntry (l : List (String × Int × String)) (e : String × Int × String)
    (cm : String) :
    findEntry cm (setEntry l e) =
      (if e.1 = cm then entryFoldStep (findEntry cm l) e else findEntry cm l) := by
  unfold setEntry
  by_cases hany : (l.any fun p => p.1 == e.1) = true
  · rw [if_pos hany, findEntry_map_upd]
    by_cases hec : e.1 = cm
    · rw [if_pos hec, if_pos hec]
      rcases hf : findEntry cm l with _ | p2
      · exfalso
        apply findEntry_ne_none_of_any_true (k := e.1) hany
        rw [hec]
        exact hf
      · rcases p2 with ⟨t0, m0⟩
        rfl
    · rw [if_neg hec, if_neg hec]
  · rw [if_neg hany, findEntry_append]
    have hnone : findEntry e.1 l = none :=
      findEntry_eq_none_of_any_false (Bool.of_not_eq_true hany)
    by_cases hec : e.1 = cm
    · rw [if_pos hec]
      rw [hec] at hnone
      rw [hnone]
      show findEntry cm [e] = entryFoldStep none e
      show (if e.1 == cm then some e.2 else none) = some (e.2.1, e.2.2)
      rw [if_pos (beq_iff_eq.mpr hec)]
    · rw [if_neg hec]
      rcases hf : findEntry cm l with _ | v
      · show findEntry cm [e] = none
        show (if e.1 == cm then some e.2 else none) = none
        rw [if_neg (beq_not_true_of_ne hec)]
      · rfl

theorem findEntry_foldl_min (cm : String) :
    ∀ (es acc : List (String × Int × String)),
    (findEntry cm (es.foldl setEntry acc)).map Prod.fst =
      ((es.filter (fun e => e.1 == cm)).map (fun e => e.2.1)).foldl minFoldStep
        ((findEntry cm acc).map Prod.fst) := by
  intro es
  induction es with
  | nil => intro acc; rfl
  | cons e es ih =>
      intro acc
      show (findEntry cm (es.foldl setEntry (setEntry acc e))).map Prod.fst = _
      rw [ih, findEntry_setEntry]
      rw [List.filter_cons]
      by_cases hec : e.1 = cm
      · rw [if_pos hec, if_pos (by rw [beq_iff_eq.mpr hec])]
        rw [List.map_cons]
        show _ = ((es.filter (fun e => e.1 == cm)).map (fun e => e.2.1)).foldl minFoldStep
          (minFoldStep ((findEntry cm acc).map Prod.fst) e.2.1)
        rcases hf : findEntry cm acc with _ | p2
        · rfl
        · rcases p2 with ⟨t0, m0⟩
          rfl
      · rw [if_neg hec, if_neg (by rw [beq_eq_false_iff_ne.mpr hec]; exact Bool.noConfusion)]

theorem foldl_minFoldStep_some (ts : List Int) : ∀ t0 : Int,
    ∃ T, ts.foldl minFoldStep (some t0) = some T ∧ (T = t0 ∨ T ∈ ts) ∧ T ≤ t0 ∧
      ∀ x ∈ ts, T ≤ x := by
  induction ts with
  | nil =>
      intro t0
      exact ⟨t0, rfl, Or.inl rfl, le_refl _, by simp⟩
  | cons t ts ih =>
      intro t0
      obtain ⟨T, heq, hmem, hle, hall⟩ := ih (min t t0)
      refine ⟨T, heq, ?_, le_trans hle (min_le_right t t0), ?_⟩
      · rcases hmem with h | h
        · rcases min_choice t t0 with hm | hm
          · right
            rw [h, hm]
            exact List.mem_cons_self t ts
          · left
            rw [h, hm]
        · right
          exact List.mem_cons_of_mem t h
      · intro x hx
        rcases List.mem_cons.mp hx with h | h
        · rw [h]
          exact le_trans hle (min_le_left t t0)
        · exact hall x h

theorem foldl_minFoldStep_none (ts : List Int) (h : ts ≠ []) :
    ∃ T, ts.foldl minFoldStep none = some T ∧ T ∈ ts ∧ ∀ x ∈ ts, T ≤ x := by
  cases ts with
  | nil => exact absurd rfl h
  | cons t ts =>
      obtain ⟨T, heq, hmem, hle, hall⟩ := foldl_minFoldStep_some ts t
      refine ⟨T, heq, ?_, ?_⟩
      · rcases hmem with h' | h'
        · rw [h']
          exact List.mem_cons_self _ _
        · exact List.mem_cons_of_mem _ h'
      · intro x hx
        rcases List.mem_cons.mp hx with h' | h'
        · rw [h']
          exact hle
        · exact hall x h'

theorem uniqKeys_setEntry (l : List (String × Int × String)) (e : String × Int × String)
    (h : uniqKeys l) : uniqKeys (setEntry l e) := by
  unfold setEntry
  by_cases hany : (l.any fun p => p.1 == e.1) = true
  · rw [if_pos hany]
    have hkey : ∀ p : String × Int × String,
        ((fun p => if p.1 == e.1 then (e.1, min e.2.1 p.2.1, e.2.2) else p) p).1 = p.1 := by
      intro p
      by_cases hp : (p.1 == e.1) = true
      · show (if p.1 == e.1 then ((e.1, min e.2.1 p.2.1, e.2.2) :
            String × Int × String) else p).1 = p.1
        rw [if_pos hp]
        exact (eq_of_beq hp).symm
      · show (if p.1 == e.1 then ((e.1, min e.2.1 p.2.1, e.2.2) :
            String × Int × String) else p).1 = p.1
        rw [if_neg hp]
    rw [uniqKeys, List.pairwise_map]
    exact h.imp (by
      intro a b hab
      rw [hkey a, hkey b]
      exact hab)
  · rw [if_neg hany]
    have hne : ∀ p ∈ l, ¬ p.1 = e.1 := by
      intro p hp
      intro hcontra
      have : (l.any fun p => p.1 == e.1) = true :=
        List.any_eq_true.mpr ⟨p, hp, beq_iff_eq.mpr hcontra⟩
      exact hany this
    rw [uniqKeys, List.pairwise_append]
    exact ⟨h, List.pairwise_singleton _ _, by
      intro a ha b hb
      rw [List.mem_singleton] at hb
      rw [hb]
      exact hne a ha⟩

theorem uniqKeys_foldl (es : List (String × Int × String)) :
    ∀ acc : List (String × Int × String), uniqKeys acc → uniqKeys (es.foldl setEntry acc) := by
  induction es with
  | nil => intro acc h; exact h
  | cons e es ih =>
      intro acc h
      exact ih (setEntry acc e) (uniqKeys_setEntry acc e h)

/-- C5: the threshold lookup built by `compute_threshold_lookup_by_motif`
keeps exactly one entry per canonical motif, and for every canonical motif with
at least one contributing (non-skipped) record the stored threshold is the
minimum of the contributing records' minimum thresholds; in particular the
concrete two-record CAG catalog with thresholds 36 and 50 yields the single
entry ("CAG", 36, "AD"). -/
theorem c5_min_merge : ∀ (canon : String → String) (records : List CatalogRecord) (cm : String),
    uniqKeys (buildLookup canon records) ∧
    (((records.filterMap (processRecord canon)).filter (fun e => e.1 == cm)) = [] →
      findEntry cm (buildLookup canon records) = none) ∧
    (((records.filterMap (processRecord canon)).filter (fun e => e.1 == cm)) ≠ [] →
      ∃ T m, findEntry cm (buildLookup canon records) = some (T, m) ∧
        T ∈ ((records.filterMap (processRecord canon)).filter
          (fun e => e.1 == cm)).map (fun e => e.2.1) ∧
        ∀ x ∈ ((records.filterMap (processRecord canon)).filter
          (fun e => e.1 == cm)).map (fun e => e.2.1), T ≤ x) ∧
    buildLookup (fun s => s) [catCAG36, catCAG50] = [("CAG", 36, "AD")] := by
  intro canon records cm
  have hfold := findEntry_foldl_min cm (records.filterMap (processRecord canon)) []
  have hbase : (findEntry cm ([] : List (String × Int × String))).map Prod.fst = none := rfl
  rw [hbase] at hfold
  refine ⟨uniqKeys_foldl _ [] List.Pairwise.nil, ?_, ?_, by decide⟩
  · intro hempty
    unfold buildLookup
    rw [hempty] at hfold
    exact Option.map_eq_none'.mp hfold
  · intro hne
    unfold buildLookup
    have hts : ((records.filterMap (processRecord canon)).filter
        (fun e => e.1 == cm)).map (fun e => e.2.1) ≠ [] := by
      intro h
      exact hne (List.map_eq_nil_iff.mp h)
    obtain ⟨T, heq, hmem, hall⟩ := foldl_minFoldStep_none _ hts
    rw [heq] at hfold
    rcases hf : findEntry cm ((records.filterMap (processRecord canon)).foldl setEntry []) with
      _ | pr
    · rw [hf] at hfold
      exact absurd hfold (by exact Option.noConfusion)
    · rw [hf] at hfold
      rcases pr with ⟨t0, m0⟩
      have ht0 : t0 = T := by
        have := Option.some_injective _ hfold
        exact this
      refine ⟨T, m0, ?_, hmem, hall⟩
      rw [ht0]

/-- Witness for C5: the minimum-merge characterization applied to the concrete
two-record CAG catalog. -/
theorem c5_min_merge_witness :
    ∃ T m, findEntry "CAG" (buildLookup (fun s => s) [catCAG36, catCAG50]) = some (T, m) ∧
      T ∈ (([catCAG36, catCAG50].filterMap (processRecord (fun s => s))).filter
        (fun e => e.1 == "CAG")).map (fun e => e.2.1) ∧
      ∀ x ∈ (([catCAG36, catCAG50].filterMap (processRecord (fun s => s))).filter
        (fun e => e.1 == "CAG")).map (fun e => e.2.1), T ≤ x :=
  (c5_min_merge (fun s => s) [catCAG36, catCAG50] "CAG").2.2.1 (by decide)

/-- C6: the claim says a record with `PathogenicMin` values but no declared
inheritance mode defaults to "AD" and is still added to the lookup.  The code
instead collects modes only from diseases carrying an `Inheritance` key while
reading the `InheritanceMode` key, so for `failingRec` (one disease,
`PathogenicMin` 40, no inheritance keys) the mode set is empty,
`next(iter(...))` raises `StopIteration`, the blanket per-record `except`
catches it, and the record is skipped: the built lookup is empty.  The
multi-mode half of the claim does hold: `multiRec` declares both "AR" and
"AD", a mode is picked, and the record is still added. -/
theorem c6_missing_mode_bug :
    (failingRec.diseases.filterMap (fun d => d.pathogenicMin)) = [40] ∧
    recordModes failingRec = [] ∧
    processRecord (fun s => s) failingRec = none ∧
    buildLookup (fun s => s) [failingRec] = [] ∧
    recordModes multiRec = ["AR", "AD"] ∧
    processRecord (fun s => s) multiRec = some ("CAG", 45, "AR") ∧
    (findEntry "CAG" (buildLookup (fun s => s) [multiRec])).isSome = true := by decide
